import Mathlib

/-!
Verification of the meme-snipe-v18 trading platform core against its
natural-language specification.  The Rust sources are shallowly embedded:
f64 prices and sizes become rationals (exactly representable test inputs
are used throughout), the statistics of the meta allocator are modelled
over the reals because of the square root, fallible calls return Except,
and each stateful loop body becomes an explicit state-passing function.
-/

namespace SharedModels

/-- TradeMode from shared-models/src/lib.rs. -/
inductive TradeMode where
  | Paper
  | Live
deriving DecidableEq

/-- Side from shared-models/src/lib.rs. -/
inductive Side where
  | Long
  | Short
deriving DecidableEq

/-- The Display implementation of Side (to_string). -/
def Side.toStr : Side → String
  | Side.Long => "Long"
  | Side.Short => "Short"

/-- EventType from shared-models/src/lib.rs. -/
inductive EventType where
  | Price
  | Social
  | Depth
  | Bridge
  | Funding
  | OnChain
  | SolPrice
  | DataSourceHeartbeat
deriving DecidableEq

/-- Opaque model of a serde_json::Value payload. -/
abbrev JsonValue := String

/-- PriceTick from shared-models/src/lib.rs. -/
structure PriceTick where
  timestamp : ℤ
  token_address : String
  price_usd : ℚ
  volume_usd_1m : ℚ
deriving DecidableEq

/-- SocialMention from shared-models/src/lib.rs. -/
structure SocialMention where
  timestamp : ℤ
  token_address : String
  source : String
  sentiment : ℚ
deriving DecidableEq

/-- DepthEvent from shared-models/src/lib.rs. -/
structure DepthEvent where
  timestamp : ℤ
  token_address : String
  bid_price : ℚ
  ask_price : ℚ
  bid_size_usd : ℚ
  ask_size_usd : ℚ
deriving DecidableEq

/-- BridgeEvent from shared-models/src/lib.rs. -/
structure BridgeEvent where
  timestamp : ℤ
  token_address : String
  source_chain : String
  destination_chain : String
  volume_usd : ℚ
deriving DecidableEq

/-- FundingEvent from shared-models/src/lib.rs. -/
structure FundingEvent where
  timestamp : ℤ
  token_address : String
  funding_rate_pct : ℚ
  next_funding_time_sec : ℕ
deriving DecidableEq

/-- SolPriceEvent from shared-models/src/lib.rs. -/
structure SolPriceEvent where
  timestamp : ℤ
  price_usd : ℚ
deriving DecidableEq

/-- OnChainEvent from shared-models/src/lib.rs. -/
structure OnChainEvent where
  timestamp : ℤ
  token_address : String
  event_type : String
  data : JsonValue
deriving DecidableEq

/-- DataSourceHeartbeat from shared-models/src/lib.rs. -/
structure DataSourceHeartbeat where
  source_name : String
  last_processed_timestamp : ℤ
  timestamp : ℤ
deriving DecidableEq

/-- MarketEvent from shared-models/src/lib.rs. -/
inductive MarketEvent where
  | Price (e : PriceTick)
  | Social (e : SocialMention)
  | Depth (e : DepthEvent)
  | Bridge (e : BridgeEvent)
  | Funding (e : FundingEvent)
  | SolPrice (e : SolPriceEvent)
  | OnChain (e : OnChainEvent)
  | DataSourceHeartbeat (e : DataSourceHeartbeat)
deriving DecidableEq

/-- MarketEvent::get_type. -/
def MarketEvent.getType : MarketEvent → EventType
  | MarketEvent.Price _ => EventType.Price
  | MarketEvent.Social _ => EventType.Social
  | MarketEvent.Depth _ => EventType.Depth
  | MarketEvent.Bridge _ => EventType.Bridge
  | MarketEvent.Funding _ => EventType.Funding
  | MarketEvent.SolPrice _ => EventType.SolPrice
  | MarketEvent.OnChain _ => EventType.OnChain
  | MarketEvent.DataSourceHeartbeat _ => EventType.DataSourceHeartbeat

/-- MarketEvent::timestamp. -/
def MarketEvent.timestamp : MarketEvent → ℤ
  | MarketEvent.Price e => e.timestamp
  | MarketEvent.Social e => e.timestamp
  | MarketEvent.Depth e => e.timestamp
  | MarketEvent.Bridge e => e.timestamp
  | MarketEvent.Funding e => e.timestamp
  | MarketEvent.SolPrice e => e.timestamp
  | MarketEvent.OnChain e => e.timestamp
  | MarketEvent.DataSourceHeartbeat e => e.timestamp

/-- OrderDetails from shared-models/src/lib.rs. -/
structure OrderDetails where
  token_address : String
  suggested_size_usd : ℚ
  confidence : ℚ
  side : Side
  limit_price : Option ℚ
  triggering_features : Option JsonValue
deriving DecidableEq

/-- StrategyAction from shared-models/src/lib.rs. -/
inductive StrategyAction where
  | Execute (details : OrderDetails) (mode : TradeMode)
  | Hold
deriving DecidableEq

/-- StrategyAllocation from shared-models/src/lib.rs. -/
structure StrategyAllocation where
  id : String
  weight : ℚ
  sharpe_ratio : ℚ
  mode : TradeMode
deriving DecidableEq

end SharedModels

namespace PositionManager

open SharedModels

/-- The fields of a position_manager TradeRecord used by the monitoring
loop (position_manager/src/database.rs). -/
structure PmTrade where
  id : ℤ
  token_address : String
  side : String
  amount_usd : ℚ
  entry_price_usd : ℚ
  highest_price_usd : Option ℚ
deriving DecidableEq

/-- The highest-price update applied to a trade by check_open_positions
(position_monitor.rs lines 88 to 98): the stored field is set to the
current price when it is missing or when the current price exceeds it,
for every trade regardless of side. -/
def newHighest (highest : Option ℚ) (current : ℚ) : ℚ :=
  match highest with
  | none => current
  | some h => if h < current then current else h

/-- The trailing-stop trigger price computed by check_open_positions
(position_monitor.rs lines 102 to 103): always from highest_price_usd
and always with the factor (1 - tau / 100). -/
def tslTriggerPrice (tau highest : ℚ) : ℚ :=
  highest * (1 - tau / 100)

/-- One monitoring step of check_open_positions for a single open trade
whose cached price is present (position_monitor.rs lines 86 to 135):
update the highest price, compute the trigger, and decide whether a
close is issued.  Returns the updated trade and the close decision. -/
def monitorDecision (tau : ℚ) (trade : PmTrade) (current : ℚ) : PmTrade × Bool :=
  let h := newHighest trade.highest_price_usd current
  let updated := { trade with highest_price_usd := some h }
  let trigger := tslTriggerPrice tau h
  if trade.side = Side.Long.toStr ∧ current < trigger then (updated, true)
  else if trade.side = Side.Short.toStr ∧ current > trigger then (updated, true)
  else (updated, false)

/-- The pnl computed by execute_close_trade (position_monitor.rs lines
157 to 162). -/
def closePnlUsd (side : String) (entry close amount : ℚ) : ℚ :=
  if side = Side.Long.toStr then (close - entry) * (amount / entry)
  else (entry - close) * (amount / entry)

/-- The status string chosen by execute_close_trade (position_monitor.rs
lines 182 to 186). -/
def closeStatus (pnl : ℚ) : String :=
  if 0 < pnl then "CLOSED_PROFIT" else "CLOSED_LOSS"

/-- The close decision of a monitoring step, characterized: a close is
issued exactly when the side is the Long string and the price is
strictly below the trigger, or the side is the Short string and the
price is strictly above the trigger, where the trigger is always the
max-updated highest price times (1 - tau / 100). -/
theorem monitorDecision_close_iff (tau : ℚ) (trade : PmTrade) (current : ℚ) :
    (monitorDecision tau trade current).2 = true ↔
      ((trade.side = "Long"
          ∧ current < tslTriggerPrice tau (newHighest trade.highest_price_usd current))
       ∨ (trade.side = "Short"
          ∧ tslTriggerPrice tau (newHighest trade.highest_price_usd current) < current)) := by
  unfold monitorDecision
  simp only [Side.toStr, gt_iff_lt]
  split_ifs with h1 h2
  · simp [h1]
  · simp [h2]
  · simp [h1, h2]

/-- A concrete Short trade at entry price 1 used as the failing input of
claim C1. -/
def shortTradeAtEntry : PmTrade :=
  { id := 1, token_address := "TOK", side := "Short",
    amount_usd := 100, entry_price_usd := 1, highest_price_usd := none }

/-- Claim C1: the claim says the monitoring cycle keeps a minimum-based
favorable extreme for Short trades and triggers at lowest times
(1 + tau), applying the max-based update and the (1 - tau) trigger only
to Long trades.  The code instead applies the max-based update and the
highest times (1 - tau) trigger to every trade: at the failing input (a
Short trade at entry price 1, cached price 1, tau = 10) the code stores
the maximum 1 as the extreme and immediately issues a close because
1 > 1 * (1 - 10/100), while the claim would give lowest = 1, trigger
1 * (1 + 10/100) = 11/10 and no close. -/
theorem c1_short_uses_long_trigger :
    (monitorDecision 10 shortTradeAtEntry 1).2 = true
    ∧ (monitorDecision 10 shortTradeAtEntry 1).1.highest_price_usd = some 1
    ∧ tslTriggerPrice 10 (newHighest shortTradeAtEntry.highest_price_usd 1) = 9/10
    ∧ ¬ ((1 : ℚ) > 1 * (1 + 10/100)) := by
  refine ⟨?_, ?_, ?_, ?_⟩
  · simp [monitorDecision, shortTradeAtEntry, newHighest, tslTriggerPrice, Side.toStr]
  · simp [monitorDecision, shortTradeAtEntry, newHighest, tslTriggerPrice, Side.toStr]
  · norm_num [shortTradeAtEntry, newHighest, tslTriggerPrice]
  · norm_num

/-- A concrete Long trade with stored highest price 1, used as the
counterexample input of claim C9. -/
def longTradeHwmOne : PmTrade :=
  { id := 2, token_address := "TOK", side := "Long",
    amount_usd := 100, entry_price_usd := 1, highest_price_usd := some 1 }

/-- Claim C9 counterexample: with tau = 10 the trigger for a Long trade
whose highest price is 1 is exactly 9/10; at current price exactly 9/10
the code does not issue a close, because the comparison in
check_open_positions (line 118) is the strict current < trigger, while
the claim says the close fires inclusively at the threshold. -/
theorem c9_threshold_no_close_counterexample :
    (9 : ℚ)/10 = tslTriggerPrice 10 (newHighest longTradeHwmOne.highest_price_usd (9/10))
    ∧ (monitorDecision 10 longTradeHwmOne (9/10)).2 = false := by
  have hnh : newHighest (some 1) (9/10) = 1 := by norm_num [newHighest]
  constructor
  · norm_num [longTradeHwmOne, newHighest, tslTriggerPrice]
  · norm_num [monitorDecision, longTradeHwmOne, hnh, tslTriggerPrice, Side.toStr]

/-- Claim C9 as amended: the trailing stop comparison is strict, not
inclusive.  A Long trade closes exactly when the current price is
strictly below highest times (1 - tau / 100); a Short trade closes
exactly when the current price is strictly above that same (max-based)
trigger; in particular at a price exactly equal to the trigger no close
is issued for either side. -/
theorem c9_strict_trigger (tau : ℚ) (trade : PmTrade) (current : ℚ) :
    (trade.side = "Long" →
      ((monitorDecision tau trade current).2 = true ↔
        current < tslTriggerPrice tau (newHighest trade.highest_price_usd current)))
    ∧ (trade.side = "Short" →
      ((monitorDecision tau trade current).2 = true ↔
        tslTriggerPrice tau (newHighest trade.highest_price_usd current) < current))
    ∧ (current = tslTriggerPrice tau (newHighest trade.highest_price_usd current) →
      (monitorDecision tau trade current).2 = false) := by
  refine ⟨?_, ?_, ?_⟩
  · intro hside
    simp [monitorDecision_close_iff, hside]
  · intro hside
    simp [monitorDecision_close_iff, hside]
  · intro heq
    rw [← Bool.not_eq_true, monitorDecision_close_iff]
    rintro (⟨-, hlt⟩ | ⟨-, hlt⟩) <;> rw [← heq] at hlt <;> exact lt_irrefl _ hlt

/-- Witness for the amended claim C9 at concrete inputs: a Long trade
with highest price 1 and tau = 10 closes at price 1/2 (strictly below
the trigger 9/10), and does not close at price exactly 9/10. -/
theorem c9_strict_trigger_witness :
    (monitorDecision 10 longTradeHwmOne (1/2)).2 = true
    ∧ (monitorDecision 10 longTradeHwmOne (9/10)).2 = false := by
  constructor
  · exact ((c9_strict_trigger 10 longTradeHwmOne (1/2)).1 rfl).mpr
      (by norm_num [longTradeHwmOne, newHighest, tslTriggerPrice])
  · exact (c9_strict_trigger 10 longTradeHwmOne (9/10)).2.2
      (by norm_num [longTradeHwmOne, newHighest, tslTriggerPrice])

/-- Claim C10: execute_close_trade records CLOSED_PROFIT only for a
strictly positive pnl; a computed pnl of exactly 0 is recorded as
CLOSED_LOSS.  Stated through the pnl formula of execute_close_trade. -/
theorem c10_zero_pnl_closed_loss (side : String) (entry close amount : ℚ) :
    (closePnlUsd side entry close amount = 0 →
      closeStatus (closePnlUsd side entry close amount) = "CLOSED_LOSS")
    ∧ (closeStatus (closePnlUsd side entry close amount) = "CLOSED_PROFIT" ↔
        0 < closePnlUsd side entry close amount) := by
  constructor
  · intro h
    simp [closeStatus, h]
  · unfold closeStatus
    split_ifs with h
    · simp [h]
    · simp [h]

/-- Witness for claim C10: a Long trade entered and closed at price 1
has pnl exactly 0 and is recorded as CLOSED_LOSS. -/
theorem c10_zero_pnl_closed_loss_witness :
    closeStatus (closePnlUsd "Long" 1 1 100) = "CLOSED_LOSS" :=
  (c10_zero_pnl_closed_loss "Long" 1 1 100).1 (by norm_num [closePnlUsd])

end PositionManager

namespace MetaAllocator

open SharedModels

/-- The mean helper of meta_allocator/src/main.rs (lines 10 to 16).
The f64 arithmetic is modelled over the reals. -/
noncomputable def mean (values : List ℝ) : ℝ :=
  if values = [] then 0 else values.sum / (values.length : ℝ)

/-- The std_dev helper of meta_allocator/src/main.rs (lines 18 to 27):
sample standard deviation with the n - 1 divisor, 0 for histories
shorter than 2. -/
noncomputable def std_dev (values : List ℝ) : ℝ :=
  if values.length < 2 then 0
  else
    Real.sqrt (((values.map (fun x => (x - mean values)^2)).sum)
      / ((values.length - 1 : ℕ) : ℝ))

/-- The per-strategy metric tuple (mean_pnl, sharpe_ratio, trade_count,
current_mode) inserted into strategy_metrics by the allocator loop. -/
structure StratMetrics where
  meanPnl : ℝ
  sharpe : ℝ
  tradeCount : ℕ
  mode : TradeMode

/-- The metric computation of the allocator loop (main.rs lines 131 to
164): for a history of more than one entry the sharpe ratio is
mean / std_dev guarded to 0 when std_dev is not positive (the is_finite
guard of the source is vacuous over the reals, where a quotient is
always finite), and the mode is Live exactly when the trade count
reaches the graduation threshold and the sharpe ratio reaches 1.25;
shorter histories get metrics (0, 0, trade_count, Paper). -/
noncomputable def computeMetrics (pnlValues : List ℝ) (tradeCount minTrades : ℕ) :
    StratMetrics :=
  if 1 < pnlValues.length then
    let meanPnl := mean pnlValues
    let stdDevPnl := std_dev pnlValues
    let sharpeRatio := if 0 < stdDevPnl then mean pnlValues / std_dev pnlValues else 0
    let currentMode :=
      if minTrades ≤ tradeCount ∧ (5/4 : ℝ) ≤ sharpeRatio then TradeMode.Live
      else TradeMode.Paper
    ⟨meanPnl, sharpeRatio, tradeCount, currentMode⟩
  else
    ⟨0, 0, tradeCount, TradeMode.Paper⟩

/-- The sharpe component of computeMetrics on histories of length at
least 2. -/
theorem computeMetrics_sharpe (xs : List ℝ) (tc mt : ℕ) (h : 1 < xs.length) :
    (computeMetrics xs tc mt).sharpe =
      if 0 < std_dev xs then mean xs / std_dev xs else 0 := by
  unfold computeMetrics
  rw [if_pos h]

/-- The mode component of computeMetrics on histories of length at
least 2. -/
theorem computeMetrics_mode (xs : List ℝ) (tc mt : ℕ) (h : 1 < xs.length) :
    (computeMetrics xs tc mt).mode =
      if mt ≤ tc ∧ (5/4 : ℝ) ≤ (if 0 < std_dev xs then mean xs / std_dev xs else 0)
      then TradeMode.Live else TradeMode.Paper := by
  unfold computeMetrics
  rw [if_pos h]

/-- On histories shorter than 2 entries computeMetrics returns the
default tuple with mode Paper and sharpe 0. -/
theorem computeMetrics_short (xs : List ℝ) (tc mt : ℕ) (h : ¬ 1 < xs.length) :
    (computeMetrics xs tc mt).mode = TradeMode.Paper
    ∧ (computeMetrics xs tc mt).sharpe = 0 := by
  unfold computeMetrics
  rw [if_neg h]
  exact ⟨rfl, rfl⟩

/-- Claim C4: the allocator computes mean and sample standard deviation
as stated, collapses the sharpe ratio to 0 when the standard deviation
is 0, publishes mode Live exactly when trade_count reaches the
graduation threshold and the sharpe ratio reaches 1.25, and publishes
Paper whenever the history has fewer than 2 entries. -/
theorem c4_graduation_mode (xs : List ℝ) (tc mt : ℕ) :
    ((computeMetrics xs tc mt).mode = TradeMode.Live ↔
      mt ≤ tc ∧ (5/4 : ℝ) ≤ (computeMetrics xs tc mt).sharpe)
    ∧ (xs.length < 2 → (computeMetrics xs tc mt).mode = TradeMode.Paper)
    ∧ (2 ≤ xs.length →
        std_dev xs =
          Real.sqrt ((xs.map (fun x => (x - xs.sum / (xs.length : ℝ))^2)).sum
            / ((xs.length : ℝ) - 1))
        ∧ (0 < std_dev xs →
            (computeMetrics xs tc mt).sharpe = (xs.sum / (xs.length : ℝ)) / std_dev xs)
        ∧ (std_dev xs = 0 → (computeMetrics xs tc mt).sharpe = 0)) := by
  by_cases h : 1 < xs.length
  · have hne : xs ≠ [] := by
      intro hnil
      rw [hnil] at h
      simp at h
    have hmean : mean xs = xs.sum / (xs.length : ℝ) := by
      rw [mean, if_neg hne]
    have hcast : ((xs.length - 1 : ℕ) : ℝ) = (xs.length : ℝ) - 1 := by
      have h1 : (1:ℕ) ≤ xs.length := by omega
      push_cast [h1]
      ring
    refine ⟨?_, ?_, ?_⟩
    · rw [computeMetrics_mode xs tc mt h, computeMetrics_sharpe xs tc mt h]
      set S := if 0 < std_dev xs then mean xs / std_dev xs else 0 with hS
      split_ifs with hc
      · simp [hc]
      · simp [hc]
    · intro hlt
      exact absurd hlt (by omega)
    · intro _
      refine ⟨?_, ?_, ?_⟩
      · rw [std_dev, if_neg (by omega : ¬ xs.length < 2), hcast, hmean]
      · intro hsd
        rw [computeMetrics_sharpe xs tc mt h, if_pos hsd, hmean]
      · intro hsd
        rw [computeMetrics_sharpe xs tc mt h,
          if_neg (by rw [hsd]; exact lt_irrefl 0)]
  · obtain ⟨hmode, hsharpe⟩ := computeMetrics_short xs tc mt h
    refine ⟨?_, fun _ => hmode, ?_⟩
    · rw [hmode, hsharpe]
      constructor
      · intro habs
        exact absurd habs (by simp)
      · rintro ⟨-, habs⟩
        norm_num at habs
    · intro h2
      exact absurd h2 (by omega)

/-- Witness for claim C4: the singleton history [1] yields mode Paper,
and on the history [1, 3] the standard deviation equals the stated
formula. -/
theorem c4_graduation_mode_witness :
    (computeMetrics ([1] : List ℝ) 5 3).mode = TradeMode.Paper
    ∧ std_dev ([1, 3] : List ℝ) =
        Real.sqrt (((([1, 3] : List ℝ).map
          (fun x => (x - ([1, 3] : List ℝ).sum / (([1, 3] : List ℝ).length : ℝ))^2)).sum)
          / ((([1, 3] : List ℝ).length : ℝ) - 1)) :=
  ⟨(c4_graduation_mode [1] 5 3).2.1 (by simp),
   ((c4_graduation_mode [1, 3] 100 100).2.2 (by simp)).1⟩

/-- The (mean_pnl, sharpe) components of the strategy_metrics tuple read
by the sorting comparator of the allocator (main.rs lines 168 to 186).
The carrier is kept generic over a linear order; the allocator always
produces finite f64 values for both fields (non-finite ratios are
collapsed to 0 before insertion), so the f64 comparison below is total
on the values that actually occur. -/
structure PerfMetrics (α : Type) where
  meanPnl : α
  sharpe : α
deriving DecidableEq

/-- Model of f64 partial_cmp on the values produced by the allocator:
None happens only for NaN, which the allocator never stores, so the
comparison always returns Some of the total-order comparison. -/
def pcmpVal {α : Type} [LinearOrder α] (x y : α) : Option Ordering :=
  some (compareOfLessAndEq x y)

/-- The comparator passed to sort_by in main.rs lines 169 to 186:
descending sharpe first; the mean-pnl comparison runs only in the
unwrap_or_else fallback, which fires only when the sharpe comparison
returns None. -/
def specCmp {α : Type} [LinearOrder α] (metrics : String → PerfMetrics α)
    (a b : String) : Ordering :=
  match pcmpVal (metrics b).sharpe (metrics a).sharpe with
  | some o => o
  | none =>
    match pcmpVal (metrics b).meanPnl (metrics a).meanPnl with
    | some o => o
    | none => Ordering.eq

/-- Stable insertion into a list sorted by a comparator: the new element
goes after every existing element that does not compare greater.  This
matches the stability guarantee of the sort_by used in the source. -/
def insertByCmp {α : Type} (cmp : α → α → Ordering) (x : α) : List α → List α
  | [] => [x]
  | y :: ys => if cmp y x = Ordering.gt then x :: y :: ys else y :: insertByCmp cmp x ys

/-- Stable sort by a comparator (the semantics of Vec::sort_by). -/
def sortByCmp {α : Type} (cmp : α → α → Ordering) (l : List α) : List α :=
  l.foldl (fun acc x => insertByCmp cmp x acc) []

/-- The metrics of the failing input of claim C7: the two strategies s1
and s2 have equal sharpe 0 and mean pnls 0 and 5. -/
def c7Metrics : String → PerfMetrics ℚ :=
  fun id => if id = "s2" then ⟨5, 0⟩ else ⟨0, 0⟩

/-- Claim C7: the claim says that among equal sharpe ratios the strategy
with the higher mean pnl comes first.  In the code the mean-pnl
comparison sits in the unwrap_or_else branch of partial_cmp, which runs
only when a sharpe value is NaN (never, since the allocator collapses
non-finite ratios to 0); on exactly equal sharpes the comparator
returns Equal and the stable sort keeps the input order.  At the
failing input, s1 (mean pnl 0) and s2 (mean pnl 5) have equal sharpe 0,
yet the published order keeps s1 first. -/
theorem c7_equal_sharpe_keeps_input_order :
    sortByCmp (specCmp c7Metrics) ["s1", "s2"] = ["s1", "s2"]
    ∧ (c7Metrics "s1").sharpe = (c7Metrics "s2").sharpe
    ∧ (c7Metrics "s1").meanPnl < (c7Metrics "s2").meanPnl
    ∧ specCmp c7Metrics "s1" "s2" = Ordering.eq := by
  refine ⟨?_, ?_, ?_, ?_⟩
  · simp [sortByCmp, insertByCmp, specCmp, pcmpVal, c7Metrics, compareOfLessAndEq]
  · simp [c7Metrics]
  · have hne : ("s1" = "s2") = False := by simp
    simp only [c7Metrics, hne, if_false]
    norm_num
  · simp [specCmp, pcmpVal, c7Metrics, compareOfLessAndEq]

end MetaAllocator

namespace Executor

open SharedModels

/-- A strategy mailbox: the tokio mpsc bounded channel created in
reconcile_strategies (executor.rs line 256).  The closed flag models a
receiver that was dropped because the strategy task was aborted. -/
structure Mailbox where
  closed : Bool
  queue : List MarketEvent
deriving DecidableEq

/-- The outcome of one send on a bounded mpsc channel: delivered when
capacity is available, suspended (the sender awaits) when the queue is
full, and an error (the event is lost, the router logs and moves on)
when the receiver is gone. -/
inductive SendOutcome where
  | delivered (queue : List MarketEvent)
  | suspended
  | closedError
deriving DecidableEq

/-- The channel bound chosen in reconcile_strategies (line 256). -/
def mailboxCapacity : ℕ := 100

/-- Semantics of the awaiting send in dispatch_event (executor.rs line
323) against one mailbox. -/
def mpscSend (m : Mailbox) (e : MarketEvent) : SendOutcome :=
  if m.closed then SendOutcome.closedError
  else if m.queue.length < mailboxCapacity then SendOutcome.delivered (m.queue ++ [e])
  else SendOutcome.suspended

/-- The event_router_senders lookup of dispatch_event (executor.rs line
321): the sender list registered for an event type, empty when none. -/
def routeLookup (router : List (EventType × List Mailbox)) (t : EventType) :
    List Mailbox :=
  match router.find? (fun p => p.1 == t) with
  | some p => p.2
  | none => []

/-- dispatch_event (executor.rs lines 319 to 328): one send per sender
subscribed to the type of the event. -/
def dispatchEvent (router : List (EventType × List Mailbox)) (e : MarketEvent) :
    List SendOutcome :=
  (routeLookup router e.getType).map (fun m => mpscSend m e)

/-- The mutable state read by the run-loop event handling (executor.rs
lines 168 to 189): the shared SOL/USD price, the pause flag and the
router table. -/
structure RunLoopState where
  solUsdPrice : ℚ
  portfolioPaused : Bool
  router : List (EventType × List Mailbox)
deriving DecidableEq

/-- What the run loop did with one parsed stream event. -/
inductive RouteOutcome where
  | staleDropped
  | solPriceUpdated
  | heartbeatNoted
  | fannedOut (outcomes : List SendOutcome)
deriving DecidableEq

/-- One iteration of the event handling in MasterExecutor::run
(executor.rs lines 168 to 189): drop events older than 30 seconds,
absorb SolPrice into the shared price, note heartbeats, and fan out
everything else through dispatch_event. -/
def processStreamEvent (now : ℤ) (st : RunLoopState) (e : MarketEvent) :
    RunLoopState × RouteOutcome :=
  if 30 < now - e.timestamp then (st, RouteOutcome.staleDropped)
  else
    match e with
    | MarketEvent.SolPrice sp =>
        ({ st with solUsdPrice := sp.price_usd }, RouteOutcome.solPriceUpdated)
    | MarketEvent.DataSourceHeartbeat _ => (st, RouteOutcome.heartbeatNoted)
    | _ => (st, RouteOutcome.fannedOut (dispatchEvent st.router e))

/-- A concrete price event used in the concrete theorems below. -/
def priceTickEvent : MarketEvent :=
  MarketEvent.Price { timestamp := 0, token_address := "TOK", price_usd := 1, volume_usd_1m := 0 }

/-- An open mailbox holding exactly 100 pending events. -/
def fullMailbox : Mailbox :=
  { closed := false, queue := List.replicate 100 priceTickEvent }

/-- Claim C2 counterexample: with a subscribed strategy whose mailbox
already holds 100 events, the fan-out send of dispatch_event is the
awaiting send of a bounded channel: it suspends until capacity frees
instead of dropping the event and proceeding, and no per-strategy drop
counter exists in the code.  The claim says the send is non-blocking
and the event is dropped. -/
theorem c2_full_mailbox_send_suspends_counterexample :
    mpscSend fullMailbox priceTickEvent = SendOutcome.suspended
    ∧ dispatchEvent [(EventType.Price, [fullMailbox])] priceTickEvent
        = [SendOutcome.suspended] := by
  constructor
  · simp [mpscSend, fullMailbox, mailboxCapacity]
  · simp [dispatchEvent, routeLookup, MarketEvent.getType, priceTickEvent,
      mpscSend, fullMailbox, mailboxCapacity]

/-- Claim C2 as amended: the per-strategy mailbox is bounded at 100,
but on a full mailbox the fan-out send suspends (awaits capacity)
rather than dropping the event; an event is lost for a strategy only
when its mailbox is closed, in which case the send returns an error
that is logged, and no drop counter is maintained. -/
theorem c2_mailbox_send_semantics (m : Mailbox) (e : MarketEvent) :
    (m.closed = false → m.queue.length < 100 →
      mpscSend m e = SendOutcome.delivered (m.queue ++ [e]))
    ∧ (m.closed = false → 100 ≤ m.queue.length →
      mpscSend m e = SendOutcome.suspended)
    ∧ (m.closed = true → mpscSend m e = SendOutcome.closedError) := by
  refine ⟨?_, ?_, ?_⟩
  · intro h1 h2
    simp [mpscSend, mailboxCapacity, h1, h2]
  · intro h1 h2
    have hno : ¬ m.queue.length < mailboxCapacity := by
      simp [mailboxCapacity]
      omega
    simp [mpscSend, h1, hno]
  · intro h1
    simp [mpscSend, h1]

/-- Witness for the amended claim C2 at concrete mailboxes: an empty
open mailbox delivers, the full mailbox suspends, a closed mailbox
yields the error outcome. -/
theorem c2_mailbox_send_semantics_witness :
    mpscSend { closed := false, queue := [] } priceTickEvent
        = SendOutcome.delivered [priceTickEvent]
    ∧ mpscSend fullMailbox priceTickEvent = SendOutcome.suspended
    ∧ mpscSend { closed := true, queue := [] } priceTickEvent
        = SendOutcome.closedError :=
  ⟨(c2_mailbox_send_semantics { closed := false, queue := [] } priceTickEvent).1
      rfl (by simp),
   (c2_mailbox_send_semantics fullMailbox priceTickEvent).2.1
      rfl (by simp [fullMailbox]),
   (c2_mailbox_send_semantics { closed := true, queue := [] } priceTickEvent).2.2 rfl⟩

/-- What one iteration of the strategy task loop produced. -/
inductive TaskStepOutcome where
  | skippedPaused
  | executed (details : OrderDetails) (mode : TradeMode)
  | held
  | errorLogged (msg : String)
deriving DecidableEq

/-- The allocation-mode lookup of strategy_task (executor.rs lines 505
to 507): the allocation mode overrides the strategy-provided mode,
defaulting to Paper when the strategy has no allocation. -/
def resolveMode (allocs : List (String × StrategyAllocation)) (id : String) : TradeMode :=
  match allocs.find? (fun p => p.1 == id) with
  | some p => p.2.mode
  | none => TradeMode.Paper

/-- One iteration of the strategy task loop (executor.rs lines 491 to
551) for a received event: when the pause flag is set the iteration
continues before on_event is invoked; otherwise on_event runs and its
action is dispatched.  The strategy trait object is modelled as a state
type together with an on_event function returning the updated state and
a Result of StrategyAction. -/
def strategyTaskStep {σ : Type} (paused : Bool)
    (onEvent : σ → MarketEvent → σ × Except String StrategyAction)
    (allocs : List (String × StrategyAllocation)) (strategyId : String)
    (state : σ) (e : MarketEvent) : σ × TaskStepOutcome :=
  if paused then (state, TaskStepOutcome.skippedPaused)
  else
    match onEvent state e with
    | (s2, Except.ok (StrategyAction.Execute details _strategyMode)) =>
        (s2, TaskStepOutcome.executed details (resolveMode allocs strategyId))
    | (s2, Except.ok StrategyAction.Hold) => (s2, TaskStepOutcome.held)
    | (s2, Except.error msg) => (s2, TaskStepOutcome.errorLogged msg)

/-- A strategy whose internal state counts the events it has processed:
its state changes on every on_event call. -/
def countingOnEvent : ℕ → MarketEvent → ℕ × Except String StrategyAction :=
  fun n _ => (n + 1, Except.ok StrategyAction.Hold)

/-- Claim C3 counterexample: with the pause flag set, an event received
from the mailbox is discarded before on_event runs: the counting
strategy would move its state from 0 to 1 if on_event were invoked, but
the task step leaves the state at 0 and records the skip.  The claim
says the event is still passed to on_event so that the strategy keeps
updating internal state, with only the resulting Execute dropped. -/
theorem c3_paused_skips_on_event_counterexample :
    strategyTaskStep true countingOnEvent [] "s" 0 priceTickEvent
        = (0, TaskStepOutcome.skippedPaused)
    ∧ (countingOnEvent 0 priceTickEvent).1 = 1 := by
  constructor <;> rfl

/-- Claim C3 as amended: when the pause flag is set the strategy task
discards each mailbox event before on_event (strategy state is not
updated and no signal outcome is produced; the skip is only logged, no
counter exists); when the flag is clear, on_event runs and its state
update takes effect; the flag does not influence event routing: the
run-loop routing outcome is the same for both values of the flag. -/
theorem c3_pause_gating_semantics {σ : Type} (paused : Bool)
    (onEvent : σ → MarketEvent → σ × Except String StrategyAction)
    (allocs : List (String × StrategyAllocation)) (strategyId : String)
    (state : σ) (e : MarketEvent) :
    (paused = true →
      strategyTaskStep paused onEvent allocs strategyId state e
        = (state, TaskStepOutcome.skippedPaused))
    ∧ (paused = false →
      (strategyTaskStep paused onEvent allocs strategyId state e).1
        = (onEvent state e).1)
    ∧ (∀ (now : ℤ) (st : RunLoopState),
        (processStreamEvent now { st with portfolioPaused := true } e).2
          = (processStreamEvent now { st with portfolioPaused := false } e).2) := by
  refine ⟨?_, ?_, ?_⟩
  · intro h
    simp [strategyTaskStep, h]
  · intro h
    simp only [strategyTaskStep, h, Bool.false_eq_true, if_false]
    rcases honk : onEvent state e with ⟨s2, r⟩
    rcases r with a | msg
    · rfl
    · cases msg <;> rfl
  · intro now st
    simp only [processStreamEvent]
    split_ifs with hstale
    · rfl
    · cases e <;> rfl

/-- Witness for the amended claim C3: the counting strategy keeps state
0 when paused, and moves to state 1 when not paused. -/
theorem c3_pause_gating_semantics_witness :
    strategyTaskStep true countingOnEvent [] "s" 0 priceTickEvent
        = (0, TaskStepOutcome.skippedPaused)
    ∧ (strategyTaskStep false countingOnEvent [] "s" 0 priceTickEvent).1
        = (countingOnEvent 0 priceTickEvent).1 :=
  ⟨(c3_pause_gating_semantics true countingOnEvent [] "s" 0 priceTickEvent).1 rfl,
   (c3_pause_gating_semantics false countingOnEvent [] "s" 0 priceTickEvent).2.1 rfl⟩

/-- A trades row of the executor ledger (executor/src/database.rs,
struct TradeRecord). -/
structure TradeRow where
  id : ℤ
  strategy_id : String
  token_address : String
  symbol : String
  amount_usd : ℚ
  status : String
  signature : Option String
  entry_time : ℤ
  entry_price_usd : ℚ
  close_time : Option ℤ
  close_price_usd : Option ℚ
  pnl_usd : Option ℚ
  confidence : ℚ
  side : String
  highest_price_usd : Option ℚ
  mode : String
deriving DecidableEq

/-- The rowid assigned by the sqlite INTEGER PRIMARY KEY on insert
(returned by last_insert_rowid): one more than the largest id. -/
def nextRowId (db : List TradeRow) : ℤ :=
  (db.map (fun r => r.id)).foldl max 0 + 1

/-- Database::log_trade_attempt (database.rs lines 87 to 112): inserts
a new row with status PENDING, no signature, the token address doubling
as the symbol, and the highest price initialized to the entry price;
returns the new db and the assigned id. -/
def log_trade_attempt (db : List TradeRow) (details : OrderDetails)
    (strategy_id : String) (entry_price_usd : ℚ) (mode : String) (now : ℤ) :
    List TradeRow × ℤ :=
  let newId := nextRowId db
  let row : TradeRow :=
    { id := newId, strategy_id := strategy_id,
      token_address := details.token_address, symbol := details.token_address,
      amount_usd := details.suggested_size_usd, status := "PENDING",
      signature := none, entry_time := now, entry_price_usd := entry_price_usd,
      close_time := none, close_price_usd := none, pnl_usd := none,
      confidence := details.confidence, side := details.side.toStr,
      highest_price_usd := some entry_price_usd, mode := mode }
  (db ++ [row], newId)

/-- Database::open_trade (database.rs lines 114 to 120): an UPDATE that
sets status OPEN and the signature on the row with the given id,
without any condition on the current status. -/
def open_trade (db : List TradeRow) (trade_id : ℤ) (signature : String) :
    List TradeRow :=
  db.map (fun r =>
    if r.id = trade_id then { r with status := "OPEN", signature := some signature }
    else r)

/-- Database::update_trade_pnl (database.rs lines 178 to 191): an
UPDATE that sets the given status together with close_time,
close_price_usd and pnl_usd on the row with the given id, without any
condition on the current status. -/
def update_trade_pnl (db : List TradeRow) (trade_id : ℤ) (status : String)
    (close_price_usd pnl_usd : ℚ) (now : ℤ) : List TradeRow :=
  db.map (fun r =>
    if r.id = trade_id then
      { r with
          status := status, close_time := some now,
          close_price_usd := some close_price_usd, pnl_usd := some pnl_usd }
    else r)

/-- A row already closed with profit, the failing state for the C5
counterexample. -/
def closedProfitRow : TradeRow :=
  { id := 1, strategy_id := "s", token_address := "TOK", symbol := "TOK",
    amount_usd := 100, status := "CLOSED_PROFIT", signature := some "sig",
    entry_time := 0, entry_price_usd := 1, close_time := some 5,
    close_price_usd := some 2, pnl_usd := some 100, confidence := 1,
    side := "Long", highest_price_usd := some 2, mode := "Live" }

/-- A freshly logged PENDING row. -/
def pendingRow : TradeRow :=
  { id := 2, strategy_id := "s", token_address := "TOK", symbol := "TOK",
    amount_usd := 100, status := "PENDING", signature := none,
    entry_time := 0, entry_price_usd := 1, close_time := none,
    close_price_usd := none, pnl_usd := none, confidence := 1,
    side := "Long", highest_price_usd := some 1, mode := "Live" }

/-- Claim C5 counterexample: the ledger operations do not enforce the
state machine.  Calling open_trade on a row whose status is
CLOSED_PROFIT moves it backwards to OPEN, and calling update_trade_pnl
on a PENDING row closes it directly, skipping OPEN; both contradict the
claim that the operations cannot move a row backwards, skip a stage, or
close a non-OPEN row. -/
theorem c5_ledger_ops_unguarded_counterexample :
    (open_trade [closedProfitRow] 1 "sig2").map (fun r => r.status) = ["OPEN"]
    ∧ (update_trade_pnl [pendingRow] 2 "CLOSED_PROFIT" 2 100 9).map (fun r => r.status)
        = ["CLOSED_PROFIT"] := by
  constructor <;> rfl

/-- Claim C5 as amended: open_trade and update_trade_pnl are
unconditional single-row UPDATEs keyed only on the id: open_trade sets
status OPEN and the signature on the matching row whatever its current
status (including already-closed rows), update_trade_pnl writes the
given status together with close_time, close_price_usd and pnl_usd
whatever the current status (including PENDING rows, skipping OPEN),
and rows with a different id are untouched; the intended
PENDING to OPEN to CLOSED progression is maintained only by the call
discipline of the executor and the position manager, not enforced by
the ledger. -/
theorem c5_ledger_ops_unconditional (db : List TradeRow) (tid : ℤ) (sig : String)
    (st : String) (cp pnl : ℚ) (now : ℤ) (r : TradeRow) (hmem : r ∈ db) :
    (r.id = tid →
      ({ r with status := "OPEN", signature := some sig } ∈ open_trade db tid sig
       ∧ { r with
             status := st, close_time := some now,
             close_price_usd := some cp, pnl_usd := some pnl }
           ∈ update_trade_pnl db tid st cp pnl now))
    ∧ (r.id ≠ tid →
      (r ∈ open_trade db tid sig ∧ r ∈ update_trade_pnl db tid st cp pnl now)) := by
  constructor
  · intro h
    constructor
    · simp only [open_trade, List.mem_map]
      exact ⟨r, hmem, by rw [if_pos h]⟩
    · simp only [update_trade_pnl, List.mem_map]
      exact ⟨r, hmem, by rw [if_pos h]⟩
  · intro h
    constructor
    · simp only [open_trade, List.mem_map]
      exact ⟨r, hmem, by rw [if_neg h]⟩
    · simp only [update_trade_pnl, List.mem_map]
      exact ⟨r, hmem, by rw [if_neg h]⟩

/-- Witness for the amended claim C5: the closed row is moved back to
OPEN by open_trade, and the PENDING row of a two-row ledger survives an
update addressed to the other id. -/
theorem c5_ledger_ops_unconditional_witness :
    { closedProfitRow with status := "OPEN", signature := some "sig2" }
        ∈ open_trade [closedProfitRow, pendingRow] 1 "sig2"
    ∧ pendingRow ∈ open_trade [closedProfitRow, pendingRow] 1 "sig2" :=
  ⟨((c5_ledger_ops_unconditional [closedProfitRow, pendingRow] 1 "sig2"
      "CLOSED_LOSS" 2 0 9 closedProfitRow (by simp)).1 rfl).1,
   ((c5_ledger_ops_unconditional [closedProfitRow, pendingRow] 1 "sig2"
      "CLOSED_LOSS" 2 0 9 pendingRow (by simp)).2 (by decide)).1⟩

/-- The environment of fallible external calls made by execute_trade
(executor.rs lines 556 to 663), in call order: the Jupiter quote, the
signer pubkey, the Jupiter swap transaction, the signer signature, the
transaction deserialization, the Jito blockhash, tip attachment and
send, and the Drift user and open_position calls.  A none or false
models the corresponding call returning an error. -/
structure ExecEnv where
  globalMaxPositionUsd : ℚ
  solUsdPrice : ℚ
  quote : Option ℚ
  signerPubkey : Option String
  swapTx : Option String
  signedTx : Option String
  deserializedOk : Bool
  recentBlockhash : Option String
  tipOk : Bool
  sendSig : Option String
  driftUser : Option String
  driftOpenSig : Option String
deriving DecidableEq

/-- The mode string written to the ledger (executor.rs lines 604 to
607). -/
def modeDbStr : TradeMode → String
  | TradeMode.Paper => "Paper"
  | TradeMode.Live => "Live"

/-- execute_trade (executor.rs lines 556 to 663): clamp the size, fail
before touching the ledger when the SOL price is not positive or when
no limit price is given and the quote fails, then log the PENDING row;
the paper path immediately opens it with the synthetic signature; the
live path runs the signer and venue calls and opens the row only when
every call succeeds, leaving the row PENDING on any failure. -/
def execute_trade (env : ExecEnv) (db : List TradeRow) (details : OrderDetails)
    (strategy_id : String) (trade_mode : TradeMode) (now : ℤ) :
    List TradeRow × Except String ℤ :=
  let _final_size_usd := min details.suggested_size_usd env.globalMaxPositionUsd
  if env.solUsdPrice ≤ 0 then
    (db, Except.error "SOL price unavailable or zero")
  else
    let priceRes : Except String ℚ :=
      match details.limit_price with
      | some lp => Except.ok lp
      | none =>
        match env.quote with
        | some q => Except.ok q
        | none => Except.error "quote failed"
    match priceRes with
    | Except.error msg => (db, Except.error msg)
    | Except.ok price =>
      let logged := log_trade_attempt db details strategy_id price (modeDbStr trade_mode) now
      if trade_mode = TradeMode.Paper then
        (open_trade logged.1 logged.2 "PAPER_TRADE", Except.ok logged.2)
      else
        match env.signerPubkey with
        | none => (logged.1, Except.error "get_pubkey failed")
        | some _ =>
          match details.side with
          | Side.Short =>
            match env.driftUser with
            | none => (logged.1, Except.error "drift get_or_create_user failed")
            | some _ =>
              match env.driftOpenSig with
              | none => (logged.1, Except.error "drift open_position failed")
              | some sig => (open_trade logged.1 logged.2 sig, Except.ok logged.2)
          | Side.Long =>
            match env.swapTx with
            | none => (logged.1, Except.error "get_swap_transaction failed")
            | some _ =>
              match env.signedTx with
              | none => (logged.1, Except.error "sign_transaction failed")
              | some _ =>
                if env.deserializedOk = false then
                  (logged.1, Except.error "deserialize failed")
                else
                  match env.recentBlockhash with
                  | none => (logged.1, Except.error "get_recent_blockhash failed")
                  | some _ =>
                    if env.tipOk = false then
                      (logged.1, Except.error "attach_tip failed")
                    else
                      match env.sendSig with
                      | none => (logged.1, Except.error "send_transaction failed")
                      | some sig => (open_trade logged.1 logged.2 sig, Except.ok logged.2)

/-- The statuses of the ledger after log_trade_attempt: the old
statuses plus one PENDING row. -/
theorem log_trade_attempt_statuses (db : List TradeRow) (details : OrderDetails)
    (sid : String) (price : ℚ) (mode : String) (now : ℤ) :
    ((log_trade_attempt db details sid price mode now).1).map (fun r => r.status)
      = db.map (fun r => r.status) ++ ["PENDING"] := by
  simp [log_trade_attempt]

/-- An environment in which the Jupiter quote fails and everything else
would succeed. -/
def envQuoteFails : ExecEnv :=
  { globalMaxPositionUsd := 500, solUsdPrice := 100, quote := none,
    signerPubkey := some "PK", swapTx := some "TX", signedTx := some "STX",
    deserializedOk := true, recentBlockhash := some "BH", tipOk := true,
    sendSig := some "SIG", driftUser := some "U", driftOpenSig := some "DS" }

/-- An environment in which the signer pubkey call fails and everything
else would succeed. -/
def envSignerFails : ExecEnv :=
  { globalMaxPositionUsd := 500, solUsdPrice := 100, quote := some 2,
    signerPubkey := none, swapTx := some "TX", signedTx := some "STX",
    deserializedOk := true, recentBlockhash := some "BH", tipOk := true,
    sendSig := some "SIG", driftUser := some "U", driftOpenSig := some "DS" }

/-- An order without a limit price, forcing the quote call. -/
def orderNoLimit : OrderDetails :=
  { token_address := "TOK", suggested_size_usd := 100, confidence := 1,
    side := Side.Long, limit_price := none, triggering_features := none }

/-- An order carrying a limit price, skipping the quote call. -/
def orderWithLimit : OrderDetails :=
  { token_address := "TOK", suggested_size_usd := 100, confidence := 1,
    side := Side.Long, limit_price := some 2, triggering_features := none }

/-- Claim C6 counterexample: the quote call happens before
log_trade_attempt, so when the quote fails no ledger row has been
created for the signal: starting from an empty ledger the ledger is
still empty after the failure, contradicting the claim that the row
created for the signal remains PENDING.  The quote precedes even the
paper branch, so the same holds in paper mode. -/
theorem c6_quote_failure_no_row_counterexample :
    execute_trade envQuoteFails [] orderNoLimit "s" TradeMode.Live 0
        = ([], Except.error "quote failed")
    ∧ execute_trade envQuoteFails [] orderNoLimit "s" TradeMode.Paper 0
        = ([], Except.error "quote failed") := by
  constructor <;> rfl

/-- After a live execution whose price came from the limit price of the
order, any failure leaves the ledger with the old statuses plus one
PENDING row: the row logged for the signal was never opened and never
removed. -/
theorem execute_trade_pending_of_limit (env : ExecEnv) (db : List TradeRow)
    (details : OrderDetails) (sid : String) (now : ℤ) (lp : ℚ)
    (hlp : details.limit_price = some lp) (hpos : 0 < env.solUsdPrice)
    (hfail : (execute_trade env db details sid TradeMode.Live now).2.isOk = false) :
    (execute_trade env db details sid TradeMode.Live now).1.map (fun r => r.status)
      = db.map (fun r => r.status) ++ ["PENDING"] := by
  have hsol : ¬ env.solUsdPrice ≤ 0 := not_le.mpr hpos
  rw [execute_trade] at hfail ⊢
  rw [if_neg hsol] at hfail ⊢
  rw [hlp] at hfail ⊢
  rcases hpk : env.signerPubkey with _ | pk
  · exact log_trade_attempt_statuses db details sid lp (modeDbStr TradeMode.Live) now
  · rcases hside : details.side with _ | _
    · rcases hswap : env.swapTx with _ | tx
      · exact log_trade_attempt_statuses db details sid lp (modeDbStr TradeMode.Live) now
      · rcases hsigned : env.signedTx with _ | stx
        · exact log_trade_attempt_statuses db details sid lp (modeDbStr TradeMode.Live) now
        · rcases hdeser : env.deserializedOk with _ | _
          · exact log_trade_attempt_statuses db details sid lp (modeDbStr TradeMode.Live) now
          · rcases hbh : env.recentBlockhash with _ | bh
            · exact log_trade_attempt_statuses db details sid lp (modeDbStr TradeMode.Live) now
            · rcases htip : env.tipOk with _ | _
              · exact log_trade_attempt_statuses db details sid lp (modeDbStr TradeMode.Live) now
              · rcases hsend : env.sendSig with _ | sg
                · exact log_trade_attempt_statuses db details sid lp (modeDbStr TradeMode.Live) now
                · simp [Except.isOk, Except.toBool, hpk, hside, hswap, hsigned, hdeser, hbh,
                    htip, hsend] at hfail
    · rcases hdu : env.driftUser with _ | du
      · exact log_trade_attempt_statuses db details sid lp (modeDbStr TradeMode.Live) now
      · rcases hdo : env.driftOpenSig with _ | ds
        · exact log_trade_attempt_statuses db details sid lp (modeDbStr TradeMode.Live) now
        · simp [Except.isOk, Except.toBool, hpk, hside, hdu, hdo] at hfail

/-- After a live execution whose price came from a successful quote
(no limit price on the order), any failure likewise leaves the ledger
with the old statuses plus one PENDING row. -/
theorem execute_trade_pending_of_quote (env : ExecEnv) (db : List TradeRow)
    (details : OrderDetails) (sid : String) (now : ℤ) (q : ℚ)
    (hlp : details.limit_price = none) (hq : env.quote = some q)
    (hpos : 0 < env.solUsdPrice)
    (hfail : (execute_trade env db details sid TradeMode.Live now).2.isOk = false) :
    (execute_trade env db details sid TradeMode.Live now).1.map (fun r => r.status)
      = db.map (fun r => r.status) ++ ["PENDING"] := by
  have hsol : ¬ env.solUsdPrice ≤ 0 := not_le.mpr hpos
  rw [execute_trade] at hfail ⊢
  rw [if_neg hsol] at hfail ⊢
  rw [hlp, hq] at hfail ⊢
  rcases hpk : env.signerPubkey with _ | pk
  · exact log_trade_attempt_statuses db details sid q (modeDbStr TradeMode.Live) now
  · rcases hside : details.side with _ | _
    · rcases hswap : env.swapTx with _ | tx
      · exact log_trade_attempt_statuses db details sid q (modeDbStr TradeMode.Live) now
      · rcases hsigned : env.signedTx with _ | stx
        · exact log_trade_attempt_statuses db details sid q (modeDbStr TradeMode.Live) now
        · rcases hdeser : env.deserializedOk with _ | _
          · exact log_trade_attempt_statuses db details sid q (modeDbStr TradeMode.Live) now
          · rcases hbh : env.recentBlockhash with _ | bh
            · exact log_trade_attempt_statuses db details sid q (modeDbStr TradeMode.Live) now
            · rcases htip : env.tipOk with _ | _
              · exact log_trade_attempt_statuses db details sid q (modeDbStr TradeMode.Live) now
              · rcases hsend : env.sendSig with _ | sg
                · exact log_trade_attempt_statuses db details sid q (modeDbStr TradeMode.Live) now
                · simp [Except.isOk, Except.toBool, hpk, hside, hswap, hsigned, hdeser, hbh,
                    htip, hsend] at hfail
    · rcases hdu : env.driftUser with _ | du
      · exact log_trade_attempt_statuses db details sid q (modeDbStr TradeMode.Live) now
      · rcases hdo : env.driftOpenSig with _ | ds
        · exact log_trade_attempt_statuses db details sid q (modeDbStr TradeMode.Live) now
        · simp [Except.isOk, Except.toBool, hpk, hside, hdu, hdo] at hfail

/-- Claim C6 as amended: a non-positive SOL price or a failed quote
(when no limit price is present) aborts before the ledger row is
created, so no row exists for that signal; once the row is logged,
whether the price came from a limit price or from a successful quote,
every signer or venue failure in the live path surfaces as an error to
the caller while the row stays PENDING (it is never advanced to OPEN
and never removed); the error is logged by the caller, no error counter
is incremented and no retry is performed at this layer. -/
theorem c6_failure_leaves_pending (env : ExecEnv) (db : List TradeRow)
    (details : OrderDetails) (sid : String) (now : ℤ) :
    ((details.limit_price ≠ none ∨ env.quote ≠ none) → 0 < env.solUsdPrice →
      (execute_trade env db details sid TradeMode.Live now).2.isOk = false →
      (execute_trade env db details sid TradeMode.Live now).1.map (fun r => r.status)
        = db.map (fun r => r.status) ++ ["PENDING"])
    ∧ (details.limit_price = none → env.quote = none → 0 < env.solUsdPrice →
      execute_trade env db details sid TradeMode.Live now
        = (db, Except.error "quote failed")) := by
  constructor
  · intro hres hpos hfail
    rcases hlim : details.limit_price with _ | lp
    · rcases hq : env.quote with _ | q
      · rcases hres with h | h
        · exact absurd hlim h
        · exact absurd hq h
      · exact execute_trade_pending_of_quote env db details sid now q hlim hq hpos hfail
    · exact execute_trade_pending_of_limit env db details sid now lp hlim hpos hfail
  · intro hlp hq hpos
    have hsol : ¬ env.solUsdPrice ≤ 0 := not_le.mpr hpos
    rw [execute_trade, if_neg hsol, hlp, hq]

/-- Witness for the amended claim C6: with a failing signer the live
path leaves a single PENDING row on an empty ledger, both when the
price comes from a successful quote (no limit price) and when it comes
from a limit price; with a failing quote and no limit price the call
returns the error with the ledger untouched. -/
theorem c6_failure_leaves_pending_witness :
    (execute_trade envSignerFails [] orderNoLimit "s" TradeMode.Live 0).1.map
        (fun r => r.status)
      = ([] : List TradeRow).map (fun r => r.status) ++ ["PENDING"]
    ∧ (execute_trade envSignerFails [] orderWithLimit "s" TradeMode.Live 0).1.map
        (fun r => r.status)
      = ([] : List TradeRow).map (fun r => r.status) ++ ["PENDING"]
    ∧ execute_trade envQuoteFails [] orderNoLimit "s" TradeMode.Live 0
        = ([], Except.error "quote failed") :=
  ⟨(c6_failure_leaves_pending envSignerFails [] orderNoLimit "s" 0).1
      (Or.inr (by simp [envSignerFails])) (by norm_num [envSignerFails]) rfl,
   (c6_failure_leaves_pending envSignerFails [] orderWithLimit "s" 0).1
      (Or.inl (by simp [orderWithLimit])) (by norm_num [envSignerFails]) rfl,
   (c6_failure_leaves_pending envQuoteFails [] orderNoLimit "s" 0).2
      rfl rfl (by norm_num [envQuoteFails])⟩

/-- Membership test on a list of strategy ids (the contains_key checks
of reconcile_strategies on the HashMap key sets). -/
def memb (l : List String) (k : String) : Bool :=
  l.any (fun x => x == k)

/-- Key lookup test on an association list modelling a HashMap. -/
def hasKey {α : Type} (m : List (String × α)) (k : String) : Bool :=
  m.any (fun p => p.1 == k)

/-- HashMap insert: replace the value in place when the key exists,
append otherwise. -/
def insertAssoc {α : Type} (m : List (String × α)) (k : String) (v : α) :
    List (String × α) :=
  if hasKey m k then m.map (fun p => if p.1 == k then (k, v) else p)
  else m ++ [(k, v)]

/-- The new_ids map built at the top of reconcile_strategies
(executor.rs lines 220 to 221): the allocation list keyed by id, later
duplicates overwriting earlier ones. -/
def allocMap (allocations : List StrategyAllocation) :
    List (String × StrategyAllocation) :=
  allocations.foldl (fun m a => insertAssoc m a.id a) []

/-- The executor state touched by reconcile_strategies: the keys of
active_strategies, the stored strategy_allocations map, and the
event_router_senders table with each sender tagged by the id of the
strategy owning the receiving mailbox. -/
structure ExecState where
  activeStrategies : List String
  storedAllocs : List (String × StrategyAllocation)
  routerSenders : List (EventType × List String)
deriving DecidableEq

/-- The purge of closed senders inside the stop loop (executor.rs lines
236 to 238): aborting a strategy task drops its receiver, so a sender
is closed exactly when its owner is no longer an active strategy; the
retain keeps the senders of the still-alive strategies. -/
def purgeRouter (router : List (EventType × List String)) (alive : List String) :
    List (EventType × List String) :=
  router.map (fun p => (p.1, p.2.filter (fun id => memb alive id)))

/-- Subscription registration for a newly started strategy (executor.rs
lines 266 to 272): push the sender onto the entry of each subscribed
event type, creating the entry when absent. -/
def addSubs (router : List (EventType × List String)) (id : String)
    (subs : List EventType) : List (EventType × List String) :=
  subs.foldl (fun r t =>
    if r.any (fun p => p.1 == t) then
      r.map (fun p => if p.1 == t then (p.1, p.2 ++ [id]) else p)
    else r ++ [(t, [id])]) router

/-- Accumulator of the start loop: the active id list, the router
table, and the list of strategies started so far. -/
abbrev StartAcc := List String × List (EventType × List String) × List String

/-- One iteration of the start loop of reconcile_strategies (executor.rs
lines 242 to 316) for one allocation entry: already-active strategies
are only weight-updated; otherwise the registry constructor and init
are attempted (their combined outcome is the environment function
buildInit, giving the subscription set on success and none on a missing
constructor or failed init, in which case the entry is skipped); on
success the strategy is registered and spawned. -/
def startStep (buildInit : String → Option (List EventType)) (acc : StartAcc)
    (p : String × StrategyAllocation) : StartAcc :=
  if memb acc.1 p.1 then acc
  else
    match buildInit p.1 with
    | none => acc
    | some subs => (acc.1 ++ [p.1], addSubs acc.2.1 p.1 subs, acc.2.2 ++ [p.1])

/-- The result of one reconciliation: the new executor state, the
stopped ids and the started ids. -/
structure ReconcileOutcome where
  state : ExecState
  stopped : List String
  started : List String
deriving DecidableEq

/-- The strategies stopped by a reconciliation (executor.rs line 230):
the active ids missing from the new allocation map. -/
def reconcileStopped (allocations : List StrategyAllocation) (S : ExecState) :
    List String :=
  S.activeStrategies.filter (fun id => !(hasKey (allocMap allocations) id))

/-- The active ids surviving the stop loop. -/
def reconcileKept (allocations : List StrategyAllocation) (S : ExecState) :
    List String :=
  S.activeStrategies.filter (fun id => hasKey (allocMap allocations) id)

/-- The accumulator entering the start loop: the surviving ids, the
router after the closed-sender purge of the stop loop (the purge runs
only inside stop iterations, so the router is untouched when nothing
stops), and the empty started list. -/
def reconcileAcc (allocations : List StrategyAllocation) (S : ExecState) : StartAcc :=
  (reconcileKept allocations S,
   if (reconcileStopped allocations S).isEmpty then S.routerSenders
   else purgeRouter S.routerSenders (reconcileKept allocations S),
   [])

/-- MasterExecutor::reconcile_strategies (executor.rs lines 219 to
317): store the new allocation map, stop every active strategy missing
from it (purging closed senders while doing so), then walk the new map
starting every strategy not yet active. -/
def reconcile_strategies (buildInit : String → Option (List EventType))
    (allocations : List StrategyAllocation) (S : ExecState) : ReconcileOutcome :=
  let newIds := allocMap allocations
  let res := newIds.foldl (startStep buildInit) (reconcileAcc allocations S)
  ⟨⟨res.1, newIds, res.2.1⟩, reconcileStopped allocations S, res.2.2⟩

/-- memb is list membership. -/
theorem memb_iff (l : List String) (k : String) : memb l k = true ↔ k ∈ l := by
  simp [memb]

/-- The start loop never removes an id from the active list. -/
theorem startStep_memb_mono (buildInit : String → Option (List EventType)) :
    ∀ (l : List (String × StrategyAllocation)) (acc : StartAcc) (k : String),
      memb acc.1 k = true → memb (l.foldl (startStep buildInit) acc).1 k = true := by
  intro l
  induction l with
  | nil =>
    intro acc k h
    simpa using h
  | cons q l ih =>
    intro acc k h
    rw [List.foldl_cons]
    apply ih
    unfold startStep
    split_ifs with hc
    · exact h
    · rcases hbi : buildInit q.1 with _ | subs
      · exact h
      · show memb (acc.1 ++ [q.1]) k = true
        rw [memb_iff] at h ⊢
        exact List.mem_append.mpr (Or.inl h)

/-- After the start loop, every key of the allocation map is active or
its construction or initialization fails. -/
theorem startStep_covers (buildInit : String → Option (List EventType)) :
    ∀ (l : List (String × StrategyAllocation)) (acc : StartAcc),
      ∀ p ∈ l, memb (l.foldl (startStep buildInit) acc).1 p.1 = true
        ∨ buildInit p.1 = none := by
  intro l
  induction l with
  | nil =>
    intro acc p hp
    exact absurd hp (by simp)
  | cons q l ih =>
    intro acc p hp
    rcases List.mem_cons.mp hp with rfl | hp2
    · rcases hbi : buildInit p.1 with _ | subs
      · exact Or.inr rfl
      · left
        rw [List.foldl_cons]
        apply startStep_memb_mono
        unfold startStep
        split_ifs with hc
        · exact hc
        · rw [hbi]
          show memb (acc.1 ++ [p.1]) p.1 = true
          rw [memb_iff]
          exact List.mem_append.mpr (Or.inr (by simp))
    · exact ih (startStep buildInit acc q) p hp2

/-- Any id active after the start loop was in the accumulator or is a
key of the processed list. -/
theorem startStep_active_src (buildInit : String → Option (List EventType)) :
    ∀ (l : List (String × StrategyAllocation)) (acc : StartAcc) (k : String),
      memb (l.foldl (startStep buildInit) acc).1 k = true →
      memb acc.1 k = true ∨ ∃ p ∈ l, p.1 = k := by
  intro l
  induction l with
  | nil =>
    intro acc k h
    exact Or.inl (by simpa using h)
  | cons q l ih =>
    intro acc k h
    rw [List.foldl_cons] at h
    rcases ih (startStep buildInit acc q) k h with h1 | ⟨p, hp, hpk⟩
    · unfold startStep at h1
      split_ifs at h1 with hc
      · exact Or.inl h1
      · rcases hbi : buildInit q.1 with _ | subs
        · rw [hbi] at h1
          exact Or.inl h1
        · rw [hbi] at h1
          replace h1 : memb (acc.1 ++ [q.1]) k = true := h1
          rw [memb_iff] at h1
          rcases List.mem_append.mp h1 with h2 | h2
          · exact Or.inl ((memb_iff acc.1 k).mpr h2)
          · right
            exact ⟨q, by simp, (List.mem_singleton.mp h2).symm⟩
    · exact Or.inr ⟨p, List.mem_cons_of_mem q hp, hpk⟩

/-- When every entry of the list is already active or fails to build,
the start loop is a no-op. -/
theorem startStep_fixed (buildInit : String → Option (List EventType)) :
    ∀ (l : List (String × StrategyAllocation)) (acc : StartAcc),
      (∀ p ∈ l, memb acc.1 p.1 = true ∨ buildInit p.1 = none) →
      l.foldl (startStep buildInit) acc = acc := by
  intro l
  induction l with
  | nil =>
    intro acc _
    rfl
  | cons q l ih =>
    intro acc h
    rw [List.foldl_cons]
    have hq := h q (List.mem_cons_self q l)
    have hstep : startStep buildInit acc q = acc := by
      unfold startStep
      rcases hq with hq | hq
      · rw [if_pos hq]
      · split_ifs with hc
        · rfl
        · rw [hq]
    rw [hstep]
    exact ih acc (fun p hp => h p (List.mem_cons_of_mem q hp))

/-- The stopped list is empty and the kept list is everything when all
active ids are keys of the allocation map. -/
theorem reconcile_acc_noop (allocations : List StrategyAllocation) (S : ExecState)
    (hcov : ∀ id ∈ S.activeStrategies, hasKey (allocMap allocations) id = true) :
    reconcileStopped allocations S = []
    ∧ reconcileAcc allocations S = (S.activeStrategies, S.routerSenders, []) := by
  have hstop : reconcileStopped allocations S = [] := by
    rw [reconcileStopped, List.filter_eq_nil_iff]
    intro a ha
    simp [hcov a ha]
  have hkeep : reconcileKept allocations S = S.activeStrategies := by
    rw [reconcileKept, List.filter_eq_self]
    intro a ha
    exact hcov a ha
  refine ⟨hstop, ?_⟩
  rw [reconcileAcc, hstop, hkeep]
  simp

/-- A reconciliation whose state already matches the allocation map
(every active id is a key, every key is active or unbuildable) stops
nothing, starts nothing, and only rewrites the stored allocation map. -/
theorem reconcile_noop (buildInit : String → Option (List EventType))
    (allocations : List StrategyAllocation) (S : ExecState)
    (hcov : ∀ id ∈ S.activeStrategies, hasKey (allocMap allocations) id = true)
    (hcov2 : ∀ p ∈ allocMap allocations,
      memb S.activeStrategies p.1 = true ∨ buildInit p.1 = none) :
    reconcile_strategies buildInit allocations S
      = ⟨⟨S.activeStrategies, allocMap allocations, S.routerSenders⟩, [], []⟩ := by
  obtain ⟨hstop, hacc⟩ := reconcile_acc_noop allocations S hcov
  simp only [reconcile_strategies]
  rw [hacc, startStep_fixed buildInit (allocMap allocations) _ hcov2, hstop]

/-- Claim C8: reconciliation is idempotent.  Applying the same
allocation snapshot to the state produced by a first reconciliation
leaves the state unchanged and performs no stops and no starts. -/
theorem c8_reconcile_idempotent (buildInit : String → Option (List EventType))
    (allocations : List StrategyAllocation) (S : ExecState) :
    (reconcile_strategies buildInit allocations
        (reconcile_strategies buildInit allocations S).state).state
      = (reconcile_strategies buildInit allocations S).state
    ∧ (reconcile_strategies buildInit allocations
        (reconcile_strategies buildInit allocations S).state).stopped = []
    ∧ (reconcile_strategies buildInit allocations
        (reconcile_strategies buildInit allocations S).state).started = [] := by
  have hactive : (reconcile_strategies buildInit allocations S).state.activeStrategies
      = ((allocMap allocations).foldl (startStep buildInit)
          (reconcileAcc allocations S)).1 := rfl
  have hcov2 : ∀ p ∈ allocMap allocations,
      memb (reconcile_strategies buildInit allocations S).state.activeStrategies p.1
        = true ∨ buildInit p.1 = none := by
    intro p hp
    rw [hactive]
    exact startStep_covers buildInit (allocMap allocations) (reconcileAcc allocations S) p hp
  have hcov : ∀ id ∈ (reconcile_strategies buildInit allocations S).state.activeStrategies,
      hasKey (allocMap allocations) id = true := by
    intro id hid
    rw [hactive] at hid
    have hm : memb ((allocMap allocations).foldl (startStep buildInit)
        (reconcileAcc allocations S)).1 id = true := (memb_iff _ id).mpr hid
    rcases startStep_active_src buildInit (allocMap allocations)
        (reconcileAcc allocations S) id hm with h1 | ⟨p, hp, hpk⟩
    · have h2 : id ∈ reconcileKept allocations S := (memb_iff _ id).mp h1
      have h3 := List.mem_filter.mp (show id ∈ S.activeStrategies.filter
        (fun i => hasKey (allocMap allocations) i) from h2)
      exact h3.2
    · rw [hasKey, List.any_eq_true]
      exact ⟨p, hp, by simp [hpk]⟩
  have heq := reconcile_noop buildInit allocations
    (reconcile_strategies buildInit allocations S).state hcov hcov2
  rw [heq]
  refine ⟨?_, rfl, rfl⟩
  have hstored : (reconcile_strategies buildInit allocations S).state.storedAllocs
      = allocMap allocations := rfl
  rw [← hstored]

end Executor
